import Mathlib

/-
Verification of the data-center rack/pillar placement engine.

Shallow embedding of the placement core found in `datacenter_grid.py`,
`pillar_manager.py`, `rack_manager.py`, `rack_layout_optimizer.py` and
`advanced_layout_strategies.py`.  Conventions of the embedding:

* Python ints are `Int`; Python floor division `//` is `Int.fdiv`; a Python
  `range(a, b)` loop becomes a map over `List.range (b - a).toNat`, which is
  empty when `b ≤ a`, exactly like the source.
* Physical (float) quantities are modelled exactly over `ℚ`; `int(round _)`
  unit conversions are abstracted by taking cell-valued sizes as arguments
  where the claims speak in cells.
* The numpy occupancy array `grid[y, x]` is a function `cell : Int → Int → Int`
  together with the two cell counts; mutation becomes functional override.
* Fallible constructs (Python exceptions such as `ZeroDivisionError` or
  numpy's `ValueError` on negative shapes) become `Option`, with `none` for
  the raising executions.
* The element dicts carry their grid-cell fields, type tag and (for racks)
  the `id` string; the derived real-world coordinates (`x`, `y`, `width`,
  `height` in meters) are projections not used by any property below and are
  omitted from the record.
-/

namespace DCD

/-! ## Element type constants (datacenter_grid.py) -/

def EMPTY : Int := 0
def PILLAR : Int := 1
def RACK : Int := 2
def WALL : Int := 3

/-! ## The grid (DataCenterGrid) -/

/-- Occupancy state of `DataCenterGrid`: cell counts plus the occupancy
array, `cell x y` being the value of `self.grid[y, x]`. -/
structure Grid where
  gridWidth : Nat
  gridLength : Nat
  cell : Int → Int → Int

/-- An all-EMPTY grid with the given cell counts. -/
def emptyGrid (w l : Nat) : Grid :=
  { gridWidth := w, gridLength := l, cell := fun _ _ => EMPTY }

/-- Embedding of `DataCenterGrid.__init__`: cell counts are the ceiling of
room size divided by cell size.  The source performs no validation; the
only failing executions are the `ZeroDivisionError` when `grid_size_m` is 0
and numpy's `ValueError` when a computed cell count is negative, both
rendered as `none`. -/
def gridInit (width_m length_m grid_size_m : ℚ) : Option Grid :=
  if grid_size_m = 0 then none
  else
    let gw : Int := ⌈width_m / grid_size_m⌉
    let gl : Int := ⌈length_m / grid_size_m⌉
    if gw < 0 ∨ gl < 0 then none
    else some { gridWidth := gw.toNat, gridLength := gl.toNat, cell := fun _ _ => EMPTY }

/-- Embedding of `DataCenterGrid.is_within_grid`. -/
def is_within_grid (g : Grid) (grid_x grid_y width_cells height_cells : Int) : Bool :=
  if grid_x < 0 ∨ grid_y < 0 ∨ grid_x + width_cells > (g.gridWidth : Int) ∨
      grid_y + height_cells > (g.gridLength : Int) then false
  else true

/-- Cells visited by the nested `for y ... for x ...` loops of
`is_area_empty`/`place_element`, as `(x, y)` pairs in visiting order. -/
def rectCells (grid_x grid_y width_cells height_cells : Int) : List (Int × Int) :=
  (List.range height_cells.toNat).flatMap fun (dy : Nat) =>
    (List.range width_cells.toNat).map fun (dx : Nat) =>
      (grid_x + (dx : Int), grid_y + (dy : Int))

/-- Embedding of `DataCenterGrid.is_area_empty`. -/
def is_area_empty (g : Grid) (grid_x grid_y width_cells height_cells : Int) : Bool :=
  is_within_grid g grid_x grid_y width_cells height_cells &&
    (rectCells grid_x grid_y width_cells height_cells).all fun c => g.cell c.1 c.2 == EMPTY

/-- A placed element record (the dict built by `place_element`), restricted
to its grid-cell fields, type tag and the rack id added by `RackManager`. -/
structure Element where
  grid_x : Int
  grid_y : Int
  width_cells : Int
  height_cells : Int
  type : Int
  id : Option String
deriving DecidableEq, Repr

/-- Embedding of `DataCenterGrid.place_element`: check `is_area_empty`, on
success overwrite exactly the covered cells with `element_type` and return
the new element record; on failure return `None` with the grid untouched. -/
def place_element (g : Grid) (grid_x grid_y width_cells height_cells element_type : Int) :
    Option Element × Grid :=
  if is_area_empty g grid_x grid_y width_cells height_cells then
    let g' : Grid :=
      { g with cell := fun a b =>
          if grid_x ≤ a ∧ a < grid_x + width_cells ∧ grid_y ≤ b ∧ b < grid_y + height_cells
          then element_type else g.cell a b }
    (some { grid_x := grid_x, grid_y := grid_y, width_cells := width_cells,
            height_cells := height_cells, type := element_type, id := none }, g')
  else (none, g)

/-! ## Whole-session state: the grid plus its element lists -/

/-- The mutable state of a `DataCenterGrid` instance: occupancy plus the
four element lists. -/
structure DCState where
  grid : Grid
  pillars : List Element
  racks : List Element
  walls : List Element
  support_rooms : List Element

/-- A freshly constructed data-center state with the given cell counts. -/
def initState (w l : Nat) : DCState :=
  { grid := emptyGrid w l, pillars := [], racks := [], walls := [], support_rooms := [] }

/-- A direct call of `grid.place_element` at the session level: only the
occupancy array can change, none of the element lists are touched (list
registration is done by the managers, not by `place_element`). -/
def place_element_direct (s : DCState) (grid_x grid_y width_cells height_cells element_type : Int) :
    Option Element × DCState :=
  let r := place_element s.grid grid_x grid_y width_cells height_cells element_type
  (r.1, { s with grid := r.2 })

/-! ## Rack manager (rack_manager.py) -/

def RACK_WIDTH_CELLS : Int := 2
def RACK_HEIGHT_CELLS : Int := 1

/-- Row-filling loop of `calculate_rack_positions`: iterate over the row
indices, stopping early (`break`) when no racks remain for the row. -/
def standardRowsAux (num_racks max_racks_per_row left_margin bottom_margin row_spacing : Int) :
    List Nat → List (Int × Int)
  | [] => []
  | row :: rest =>
    let grid_y := bottom_margin + (row : Int) * (RACK_HEIGHT_CELLS + row_spacing)
    let racks_in_this_row := min max_racks_per_row (num_racks - (row : Int) * max_racks_per_row)
    if racks_in_this_row ≤ 0 then []
    else
      ((List.range racks_in_this_row.toNat).map fun i =>
        (left_margin + (i : Int) * RACK_WIDTH_CELLS, grid_y)) ++
      standardRowsAux num_racks max_racks_per_row left_margin bottom_margin row_spacing rest

/-- Embedding of `RackManager.calculate_rack_positions` (standard rows). -/
def calculate_rack_positions (g : Grid) (num_racks top_margin bottom_margin left_margin
    right_margin row_spacing : Int) : List (Int × Int) :=
  let available_width : Int := (g.gridWidth : Int) - left_margin - right_margin
  let available_height : Int := (g.gridLength : Int) - top_margin - bottom_margin
  let max_racks_per_row := Int.fdiv available_width RACK_WIDTH_CELLS
  if max_racks_per_row = 0 then []
  else
    let rows_needed := Int.fdiv (num_racks + max_racks_per_row - 1) max_racks_per_row
    let total_height_needed := rows_needed * (RACK_HEIGHT_CELLS + row_spacing) - row_spacing
    let nr :=
      if total_height_needed > available_height then
        (Int.fdiv available_height (RACK_HEIGHT_CELLS + row_spacing)) * max_racks_per_row
      else num_racks
    let rn :=
      if total_height_needed > available_height then
        Int.fdiv available_height (RACK_HEIGHT_CELLS + row_spacing)
      else rows_needed
    standardRowsAux nr max_racks_per_row left_margin bottom_margin row_spacing
      (List.range rn.toNat)

/-- Embedding of `RackManager.place_racks`, with the running `enumerate`
index made explicit: candidate `i` that places successfully is given id
`R{i+1}` and appended to the grid's rack list. -/
def place_racks_aux (s : DCState) : List (Int × Int) → Nat → List Element × DCState
  | [], _ => ([], s)
  | (grid_x, grid_y) :: rest, i =>
    match place_element s.grid grid_x grid_y RACK_WIDTH_CELLS RACK_HEIGHT_CELLS RACK with
    | (some e, g') =>
      let e' := { e with id := some ("R" ++ toString (i + 1)) }
      let s' := { s with grid := g', racks := s.racks ++ [e'] }
      let r := place_racks_aux s' rest (i + 1)
      (e' :: r.1, r.2)
    | (none, _) => place_racks_aux s rest (i + 1)

/-- Embedding of `RackManager.place_racks` (commit). -/
def place_racks (s : DCState) (rack_positions : List (Int × Int)) : List Element × DCState :=
  place_racks_aux s rack_positions 0

/-- Candidate indices (0-based) at which `place_racks` succeeds, threading
the state exactly as the commit loop does. -/
def success_indices (s : DCState) : List (Int × Int) → Nat → List Nat
  | [], _ => []
  | (grid_x, grid_y) :: rest, i =>
    match place_element s.grid grid_x grid_y RACK_WIDTH_CELLS RACK_HEIGHT_CELLS RACK with
    | (some e, g') =>
      let e' := { e with id := some ("R" ++ toString (i + 1)) }
      let s' := { s with grid := g', racks := s.racks ++ [e'] }
      i :: success_indices s' rest (i + 1)
    | (none, _) => success_indices s rest (i + 1)

/-! ## Pillar manager (pillar_manager.py) -/

/-- Embedding of `PillarManager.place_pillar`: route through `place_element`
with type PILLAR and append to the pillar list on success. -/
def place_pillar (s : DCState) (grid_x grid_y grid_width grid_height : Int) :
    Option Element × DCState :=
  match place_element s.grid grid_x grid_y grid_width grid_height PILLAR with
  | (some e, g') => (some e, { s with grid := g', pillars := s.pillars ++ [e] })
  | (none, g') => (none, { s with grid := g' })

/-- Position computation of `PillarManager.place_pillars_by_count`, over
cell-valued pillar sizes (the mm-to-cells float conversion of the source is
performed before this logic and is abstracted away).  Note the final
edge-pinning overrides `if x_idx == 0: grid_x = 0` / `if y_idx == 0:
grid_y = 0`, which the source applies unconditionally. -/
def pillar_positions_by_count (room_width_cells room_length_cells : Int)
    (pillar_grid_width pillar_grid_height : Int) (num_pillars_x num_pillars_y : Nat) :
    List (Int × Int) :=
  let x_spacing_cells : Int :=
    if num_pillars_x > 1 then Int.fdiv room_width_cells ((num_pillars_x : Int) - 1)
    else room_width_cells
  let y_spacing_cells : Int :=
    if num_pillars_y > 1 then Int.fdiv room_length_cells ((num_pillars_y : Int) - 1)
    else room_length_cells
  (List.range num_pillars_y).flatMap fun y_idx =>
    (List.range num_pillars_x).map fun x_idx =>
      let gx0 : Int :=
        if num_pillars_x > 1 then
          (if (x_idx : Int) < (num_pillars_x : Int) - 1 then (x_idx : Int) * x_spacing_cells
           else room_width_cells - pillar_grid_width)
        else Int.fdiv (room_width_cells - pillar_grid_width) 2
      let gy0 : Int :=
        if num_pillars_y > 1 then
          (if (y_idx : Int) < (num_pillars_y : Int) - 1 then (y_idx : Int) * y_spacing_cells
           else room_length_cells - pillar_grid_height)
        else Int.fdiv (room_length_cells - pillar_grid_height) 2
      let gx := if x_idx = 0 then 0 else gx0
      let gy := if y_idx = 0 then 0 else gy0
      (gx, gy)

/-- Embedding of `PillarManager.place_pillars_by_count`: clear the pillar
list (the source resets only the list, not the occupancy cells), then
commit every computed position through `place_pillar`. -/
def place_pillars_by_count (s : DCState) (pillar_grid_width pillar_grid_height : Int)
    (num_pillars_x num_pillars_y : Nat) : List Element × DCState :=
  let s0 : DCState := { s with pillars := [] }
  (pillar_positions_by_count (s.grid.gridWidth : Int) (s.grid.gridLength : Int)
      pillar_grid_width pillar_grid_height num_pillars_x num_pillars_y).foldl
    (fun acc p =>
      match place_pillar acc.2 p.1 p.2 pillar_grid_width pillar_grid_height with
      | (some e, s') => (acc.1 ++ [e], s')
      | (none, s') => (acc.1, s'))
    ([], s0)

/-! ## Layout optimizer (rack_layout_optimizer.py) -/

/-- Clearing loop body of `RackLayoutOptimizer._clear_racks` for one rack.
The source iterates `y` over `grid_y .. grid_y + width_cells` and `x` over
`grid_x .. grid_x + height_cells` (width and height swapped), resets a cell
only when it currently holds RACK, and ignores `IndexError` for indices
beyond the array (placed racks have non-negative origins, so the negative
wrap-around of numpy indexing is unreachable and out-of-range simply
skips). -/
def clear_rack_cells (g : Grid) (r : Element) : Grid :=
  { g with cell := fun a b =>
      if r.grid_x ≤ a ∧ a < r.grid_x + r.height_cells ∧
          r.grid_y ≤ b ∧ b < r.grid_y + r.width_cells ∧
          0 ≤ a ∧ a < (g.gridWidth : Int) ∧ 0 ≤ b ∧ b < (g.gridLength : Int) ∧
          g.cell a b = RACK
      then EMPTY else g.cell a b }

/-- Embedding of `RackLayoutOptimizer._clear_racks`: run the clearing loop
for every rack in the list, then empty the rack list. -/
def clear_racks (s : DCState) : DCState :=
  { s with grid := s.racks.foldl clear_rack_cells s.grid, racks := [] }

/-- Per-strategy record stored by `_calculate_metrics` (the stored
parameter dictionary is not consulted by any property below). -/
structure LayoutMetrics where
  racks_placed : Nat
  space_utilization : ℚ
deriving DecidableEq, Repr

/-- Embedding of `RackLayoutOptimizer._calculate_metrics`: utilization is
placed rack cell-area over total grid cell-area, guarded to 0 when the
grid has no cells. -/
def calculate_metrics (g : Grid) (racks : List Element) : LayoutMetrics :=
  let total_space : Int := (g.gridWidth : Int) * (g.gridLength : Int)
  let rack_space : Int := (racks.map fun r => r.width_cells * r.height_cells).sum
  { racks_placed := racks.length
    space_utilization := if total_space > 0 then (rack_space : ℚ) / (total_space : ℚ) else 0 }

/-- One step of the `get_best_layout` scan: keep the running best, replace
it when a strictly higher utilization appears. -/
def scanStep (acc : Option String × ℚ) (p : String × LayoutMetrics) : Option String × ℚ :=
  if p.2.space_utilization > acc.2 then (some p.1, p.2.space_utilization) else acc

/-- Linear scan of `get_best_layout` over the insertion-ordered metrics
entries, starting from `best_layout = None`, `best_value = -1`. -/
def best_layout_scan (ms : List (String × LayoutMetrics)) : Option String × ℚ :=
  ms.foldl scanStep (none, -1)

/-- Metrics map actually scanned by `get_best_layout`: the source re-runs
the full comparison (`compare_layouts`) when fewer than the 5 layout types
are present; the re-run's outcome is the `refreshed` map. -/
def effective_metrics (current refreshed : List (String × LayoutMetrics)) :
    List (String × LayoutMetrics) :=
  if current.length < 5 then refreshed else current

/-- Embedding of `RackLayoutOptimizer.get_best_layout` for the
`space_utilization` metric (every stored record carries that key, so the
`metric in metrics` test of the source is always true). -/
def get_best_layout (current refreshed : List (String × LayoutMetrics)) : Option String :=
  (best_layout_scan (effective_metrics current refreshed)).1

/-- Running maximum of the scan: fold of `max` over the utilizations,
seeded with the scan's initial `best_value`. -/
def maxUtilFrom (ms : List (String × LayoutMetrics)) (v : ℚ) : ℚ :=
  ms.foldl (fun m p => max m p.2.space_utilization) v

/-! ## Advanced strategies (advanced_layout_strategies.py) -/

/-- Truncation toward zero, the behaviour of Python `int()` on a float. -/
def pyInt (q : ℚ) : Int := if 0 ≤ q then ⌊q⌋ else ⌈q⌉

/-- Embedding of
`AdvancedRackLayoutStrategies.generate_high_density_zones_layout`.
The source computes `high_density_count / num_racks` in float, so a request
of 0 racks raises `ZeroDivisionError` (`none` here); a non-positive
`RACK_WIDTH_CELLS + high_density_spacing` would likewise raise in the
`//` for `hd_racks_per_row` and is also rendered as `none`. -/
def generate_high_density_zones_layout (g : Grid) (num_racks : Int)
    (top_margin bottom_margin left_margin right_margin high_density_pct
      high_density_spacing : Int) : Option (List (Int × Int)) :=
  let high_density_count : Int := pyInt ((num_racks : ℚ) * (high_density_pct : ℚ) / 100)
  let low_density_count : Int := num_racks - high_density_count
  let available_width : Int := (g.gridWidth : Int) - left_margin - right_margin
  if num_racks = 0 then none
  else if RACK_WIDTH_CELLS + high_density_spacing = 0 then none
  else
    let high_density_width : Int :=
      pyInt ((available_width : ℚ) * ((high_density_count : ℚ) / (num_racks : ℚ)) * (3 / 2))
    let low_density_width : Int := available_width - high_density_width
    let hd_racks_per_row0 := Int.fdiv high_density_width (RACK_WIDTH_CELLS + high_density_spacing)
    let hd_racks_per_row := if hd_racks_per_row0 ≤ 0 then 1 else hd_racks_per_row0
    let hd_rows_needed :=
      Int.fdiv (high_density_count + hd_racks_per_row - 1) hd_racks_per_row
    let hd_positions :=
      (List.range hd_rows_needed.toNat).flatMap fun row =>
        (List.range (min hd_racks_per_row
            (high_density_count - (row : Int) * hd_racks_per_row)).toNat).map fun col =>
          (left_margin + (col : Int) * (RACK_WIDTH_CELLS + high_density_spacing),
           bottom_margin + (row : Int) * (RACK_HEIGHT_CELLS + high_density_spacing))
    let ld_racks_per_row0 := Int.fdiv low_density_width RACK_WIDTH_CELLS
    let ld_racks_per_row := if ld_racks_per_row0 ≤ 0 then 1 else ld_racks_per_row0
    let ld_rows_needed :=
      Int.fdiv (low_density_count + ld_racks_per_row - 1) ld_racks_per_row
    let ld_positions :=
      (List.range ld_rows_needed.toNat).flatMap fun row =>
        (List.range (min ld_racks_per_row
            (low_density_count - (row : Int) * ld_racks_per_row)).toNat).map fun col =>
          (left_margin + high_density_width + (col : Int) * RACK_WIDTH_CELLS,
           bottom_margin + (row : Int) * (RACK_HEIGHT_CELLS + 1))
    some ((hd_positions ++ ld_positions).take num_racks.toNat)

/-! ## The occupancy/element-list consistency invariant (spec section 3) -/

/-- Footprint membership, as a Bool: does element `e` cover cell `(a, b)`. -/
def coversB (e : Element) (a b : Int) : Bool :=
  decide (e.grid_x ≤ a ∧ a < e.grid_x + e.width_cells ∧
          e.grid_y ≤ b ∧ b < e.grid_y + e.height_cells)

/-- Consistency of one cell with the element lists: an EMPTY cell is
covered by no element, a non-EMPTY cell is covered by some element of the
matching-type list and by exactly one placed element overall. -/
def cellConsistent (s : DCState) (a b : Int) : Bool :=
  let v := s.grid.cell a b
  let matching : List Element :=
    if v = PILLAR then s.pillars else if v = RACK then s.racks
    else if v = WALL then s.walls else []
  let allEls := s.pillars ++ s.racks ++ s.walls
  if v = EMPTY then allEls.all fun e => !(coversB e a b)
  else (matching.any fun e => coversB e a b) &&
    (allEls.countP (fun e => coversB e a b) == 1)

/-- The invariant over the whole grid: every in-bounds cell is consistent
with the element lists. -/
def consistentB (s : DCState) : Bool :=
  (List.range s.grid.gridWidth).all fun a =>
    (List.range s.grid.gridLength).all fun b =>
      cellConsistent s (a : Int) (b : Int)

/-- Concrete five-strategy metrics map used to exercise the best-layout
selection: three infeasible strategies with 0 racks, one with 10, one
with 4 (utilization scaled with total area 2 so that the stored value is
the rack count). -/
def msC9 : List (String × LayoutMetrics) :=
  [("standard", { racks_placed := 0, space_utilization := 0 }),
   ("hot_cold_aisle", { racks_placed := 0, space_utilization := 0 }),
   ("diagonal", { racks_placed := 0, space_utilization := 0 }),
   ("perimeter", { racks_placed := 10, space_utilization := 10 }),
   ("pods", { racks_placed := 4, space_utilization := 4 })]

/-! ## Helper lemmas -/

/-- A rectangle with positive width and height contains its own origin. -/
lemma mem_rectCells_self (x y w h : Int) (hw : 1 ≤ w) (hh : 1 ≤ h) :
    ((x, y) : Int × Int) ∈ rectCells x y w h := by
  unfold rectCells
  have h1 : ((x, y) : Int × Int) ∈
      (List.range w.toNat).map (fun dx : Nat => (x + (dx : Int), y + ((0 : Nat) : Int))) := by
    have he : ((x, y) : Int × Int) =
        (fun dx : Nat => (x + (dx : Int), y + ((0 : Nat) : Int))) 0 := by simp
    rw [he]
    exact List.mem_map_of_mem _ (List.mem_range.mpr (by omega))
  exact List.mem_flatMap.mpr ⟨0, List.mem_range.mpr (by omega), h1⟩

/-- A failed emptiness check leaves `place_element` without effect. -/
lemma place_element_of_not_empty (g : Grid) (x y w h t : Int)
    (hE : is_area_empty g x y w h = false) :
    place_element g x y w h t = (none, g) := by
  simp [place_element, hE]

/-! ## C1: place_element is an atomic check-and-set -/

/-- C1 (amended): `place_element` is an atomic check-and-set.  If
`is_area_empty` is false it returns `None` with the occupancy untouched;
if it is true it returns the element record, sets exactly the cells of
`[x, x+w) × [y, y+h)` to the given type and leaves all other cells alone,
and — provided the footprint is non-degenerate (`w, h ≥ 1`) and the type
is not EMPTY — the same area is no longer empty afterwards, so repeating
the identical placement returns `None` and changes nothing. -/
theorem place_element_atomic_check_and_set (g : Grid) (x y w h t : Int) :
    (is_area_empty g x y w h = false → place_element g x y w h t = (none, g)) ∧
    (is_area_empty g x y w h = true →
      (place_element g x y w h t).1 =
        some { grid_x := x, grid_y := y, width_cells := w, height_cells := h,
               type := t, id := none } ∧
      (∀ a b : Int, x ≤ a ∧ a < x + w ∧ y ≤ b ∧ b < y + h →
          (place_element g x y w h t).2.cell a b = t) ∧
      (∀ a b : Int, ¬(x ≤ a ∧ a < x + w ∧ y ≤ b ∧ b < y + h) →
          (place_element g x y w h t).2.cell a b = g.cell a b) ∧
      (1 ≤ w → 1 ≤ h → t ≠ EMPTY →
          is_area_empty (place_element g x y w h t).2 x y w h = false ∧
          place_element (place_element g x y w h t).2 x y w h t =
            (none, (place_element g x y w h t).2))) := by
  constructor
  · exact place_element_of_not_empty g x y w h t
  · intro hE
    refine ⟨by simp [place_element, hE], ?_, ?_, ?_⟩
    · intro a b hab
      simp [place_element, hE, hab]
    · intro a b hab
      simp [place_element, hE, hab]
    · intro hw hh ht
      have hcell : (place_element g x y w h t).2.cell x y = t := by
        have hin : x ≤ x ∧ x < x + w ∧ y ≤ y ∧ y < y + h := by omega
        simp [place_element, hE, hin]
      have hfalse : is_area_empty (place_element g x y w h t).2 x y w h = false := by
        have hall : ((rectCells x y w h).all fun c =>
            (place_element g x y w h t).2.cell c.1 c.2 == EMPTY) = false := by
          by_contra hcon
          rw [Bool.not_eq_false] at hcon
          have := List.all_eq_true.mp hcon (x, y) (mem_rectCells_self x y w h hw hh)
          rw [hcell] at this
          exact ht (by simpa using this)
        unfold is_area_empty
        rw [hall, Bool.and_false]
      exact ⟨hfalse, place_element_of_not_empty _ x y w h t hfalse⟩

/-- Witness for C1 on a concrete 2×2 grid and a 2×1 RACK at the origin. -/
theorem place_element_atomic_check_and_set_witness :
    (place_element (emptyGrid 2 2) 0 0 2 1 RACK).2.cell 1 0 = RACK ∧
    is_area_empty (place_element (emptyGrid 2 2) 0 0 2 1 RACK).2 0 0 2 1 = false ∧
    place_element (place_element (emptyGrid 2 2) 0 0 2 1 RACK).2 0 0 2 1 RACK =
      (none, (place_element (emptyGrid 2 2) 0 0 2 1 RACK).2) := by
  have thm := place_element_atomic_check_and_set (emptyGrid 2 2) 0 0 2 1 RACK
  have h2 := thm.2 (by decide)
  have h5 := h2.2.2.2 (by decide) (by decide) (by decide)
  exact ⟨h2.2.1 1 0 (by omega), h5.1, h5.2⟩

/-- Counterexample to C1 as stated: a degenerate rectangle of width 0 is
"empty" both before and after placement, so the identical placement
succeeds a second time instead of returning `None`. -/
theorem place_element_zero_width_repeat :
    (place_element (emptyGrid 2 2) 0 0 0 1 RACK).1.isSome = true ∧
    (place_element (place_element (emptyGrid 2 2) 0 0 0 1 RACK).2 0 0 0 1 RACK).1.isSome
      = true := by
  constructor <;> rfl

/-! ## C2: every strategy treats the requested count as an upper bound -/

/-- C2 (failing execution): the high-density-zones strategy divides by the
requested rack count, so requesting 0 racks raises `ZeroDivisionError`
(`none` in this embedding) instead of returning an empty candidate list. -/
theorem high_density_zero_racks_crashes :
    generate_high_density_zones_layout (emptyGrid 20 20) 0 3 3 3 3 30 2 = none := by
  rfl

/-! ## C3: clearRacks resets every RACK cell -/

/-- C3 (failing execution): `_clear_racks` iterates `y` over the rack's
width and `x` over its height (bounds swapped), so after committing one
2×1 rack at the origin of a 4×4 grid and clearing, cell (1,0) — part of
the rack's footprint — still holds RACK even though the rack list is
emptied and cell (0,0) was reset. -/
theorem clear_racks_leaves_rack_cell :
    (clear_racks (place_racks (initState 4 4) [(0, 0)]).2).grid.cell 1 0 = RACK ∧
    (clear_racks (place_racks (initState 4 4) [(0, 0)]).2).racks = [] ∧
    (clear_racks (place_racks (initState 4 4) [(0, 0)]).2).grid.cell 0 0 = EMPTY := by
  exact ⟨by decide, by decide, by decide⟩

/-! ## C4: the occupancy/element-list consistency invariant -/

/-- C4 (failing execution): the consistency invariant holds after
committing one rack on a fresh 4×4 grid, but is broken by the very next
core operation, `_clear_racks`, which leaves an orphaned RACK cell while
emptying the rack list. -/
theorem consistency_broken_by_clear_racks :
    consistentB (place_racks (initState 4 4) [(0, 0)]).2 = true ∧
    consistentB (clear_racks (place_racks (initState 4 4) [(0, 0)]).2) = false := by
  exact ⟨by decide, by decide⟩

/-! ## C5: grid construction -/

/-- Counterexample to C5 as stated: constructing a grid with room width 0
succeeds (numpy happily allocates a 0-column array); no ConfigurationError
is raised — indeed no such check exists anywhere in the constructor. -/
theorem gridInit_zero_width_succeeds : (gridInit 0 5 1).isSome = true := by
  unfold gridInit
  rw [if_neg (by norm_num), if_neg (by norm_num)]
  rfl

/-- C5 (amended): construction performs no parameter validation.  For
positive room sizes and cell size it succeeds with cell counts given by
ceiling-division, and a room width of 0 also succeeds (producing a grid
with 0 columns) rather than failing. -/
theorem gridInit_no_validation_and_ceiling :
    (∀ w l c : ℚ, 0 < w → 0 < l → 0 < c →
      ∃ g, gridInit w l c = some g ∧
        (g.gridWidth : Int) = ⌈w / c⌉ ∧ (g.gridLength : Int) = ⌈l / c⌉) ∧
    (∀ l c : ℚ, 0 ≤ l → 0 < c → (gridInit 0 l c).isSome = true) := by
  constructor
  · intro w l c hw hl hc
    have hgw : (0 : Int) < ⌈w / c⌉ := Int.ceil_pos.mpr (div_pos hw hc)
    have hgl : (0 : Int) < ⌈l / c⌉ := Int.ceil_pos.mpr (div_pos hl hc)
    unfold gridInit
    rw [if_neg hc.ne', if_neg (by push_neg; omega)]
    exact ⟨_, rfl, by simp [Int.toNat_of_nonneg hgw.le], by simp [Int.toNat_of_nonneg hgl.le]⟩
  · intro l c hl hc
    have hgl : (0 : Int) ≤ ⌈l / c⌉ := Int.ceil_nonneg (div_nonneg hl hc.le)
    have hgw : ⌈(0 : ℚ) / c⌉ = 0 := by simp
    unfold gridInit
    rw [if_neg hc.ne', if_neg (by push_neg; omega)]
    rfl

/-- Witness for C5 on the 10m × 10m room with 1m cells. -/
theorem gridInit_ceiling_witness :
    (∃ g, gridInit 10 10 1 = some g ∧
        (g.gridWidth : Int) = ⌈(10 : ℚ) / 1⌉ ∧ (g.gridLength : Int) = ⌈(10 : ℚ) / 1⌉) ∧
    (gridInit 0 5 1).isSome = true := by
  have thm := gridInit_no_validation_and_ceiling
  exact ⟨thm.1 10 10 1 (by norm_num) (by norm_num) (by norm_num),
         thm.2 5 1 (by norm_num) (by norm_num)⟩

/-! ## C6: place_pillars_by_count with a per-axis count of 1 -/

/-- C6 (failing execution): with one pillar requested along each axis of a
10×10-cell room and a 2×2-cell pillar, the source first computes the
centered origin `(10-2)//2 = 4` but then unconditionally pins index 0 to
the edge, so the single pillar lands at (0,0) instead of (4,4). -/
theorem pillars_by_count_one_not_centered :
    ((place_pillars_by_count (initState 10 10) 2 2 1 1).1.map fun e =>
        (e.grid_x, e.grid_y)) = [(0, 0)] ∧
    Int.fdiv ((10 : Int) - 2) 2 = 4 := by
  exact ⟨by decide, by decide⟩

/-! ## C7: rack identifier assignment at commit -/

/-- Counterexample to C7 as stated: committing candidates
`[(0,0), (0,0), (2,0)]` on a fresh 6×1 grid places two racks (the second
candidate collides with the first), and their identifiers are R1 and R3 —
the failed placement consumed R2, so the second successfully placed rack
does not receive R2 as the claim requires. -/
theorem place_racks_id_gap :
    ((place_racks (initState 6 1) [(0, 0), (0, 0), (2, 0)]).1.map Element.id) =
      [some "R1", some "R3"] ∧
    [some "R1", some "R3"] ≠ [some "R1", some "R2"] := by
  exact ⟨by decide, by decide⟩

/-- C7 (amended): `place_racks` derives identifiers from the candidate's
position in the input list, not from commit order: in order, the placed
racks carry exactly the ids `R{i+1}` for the 0-based indices `i` of the
candidates whose placement succeeded, so a failed placement consumes its
identifier and the surviving ids need not be contiguous. -/
theorem place_racks_ids_follow_candidate_index (s : DCState) (ps : List (Int × Int)) :
    ((place_racks s ps).1.map Element.id) =
      (success_indices s ps 0).map fun i => some ("R" ++ toString (i + 1)) := by
  suffices h : ∀ (qs : List (Int × Int)) (s' : DCState) (i : Nat),
      ((place_racks_aux s' qs i).1.map Element.id) =
        (success_indices s' qs i).map fun j => some ("R" ++ toString (j + 1)) by
    exact h ps s 0
  intro qs
  induction qs with
  | nil => intro s' i; rfl
  | cons p rest ih =>
    intro s' i
    obtain ⟨px, py⟩ := p
    simp only [place_racks_aux, success_indices]
    cases hpe : place_element s'.grid px py RACK_WIDTH_CELLS RACK_HEIGHT_CELLS RACK with
    | mk r g' =>
      cases r with
      | some e => simpa using ih _ (i + 1)
      | none => simpa using ih _ (i + 1)

/-! ## C8: the 10×10 standard-rows scenario -/

/-- C8: on a 10×10-cell grid with all margins 0 and row spacing 0,
requesting 30 racks of the fixed 2×1 footprint yields exactly the 30
candidates with x ∈ {0,2,4,6,8} and y = 0..5, left-to-right within each
row and bottom-to-top across rows. -/
theorem calculate_rack_positions_scenario_10x10 :
    calculate_rack_positions (emptyGrid 10 10) 30 0 0 0 0 0 =
      [(0, 0), (2, 0), (4, 0), (6, 0), (8, 0),
       (0, 1), (2, 1), (4, 1), (6, 1), (8, 1),
       (0, 2), (2, 2), (4, 2), (6, 2), (8, 2),
       (0, 3), (2, 3), (4, 3), (6, 3), (8, 3),
       (0, 4), (2, 4), (4, 4), (6, 4), (8, 4),
       (0, 5), (2, 5), (4, 5), (6, 5), (8, 5)] := by
  decide

/-! ## C9: best-layout selection -/

lemma maxUtilFrom_cons (q : String × LayoutMetrics) (rest : List (String × LayoutMetrics))
    (v : ℚ) : maxUtilFrom (q :: rest) v = maxUtilFrom rest (max v q.2.space_utilization) :=
  rfl

lemma scanStep_snd (acc : Option String × ℚ) (p : String × LayoutMetrics) :
    (scanStep acc p).2 = max acc.2 p.2.space_utilization := by
  unfold scanStep
  rcases le_or_lt p.2.space_utilization acc.2 with hle | hlt
  · rw [if_neg (not_lt.mpr hle), max_eq_left hle]
  · rw [if_pos hlt, max_eq_right hlt.le]

lemma le_maxUtilFrom (ms : List (String × LayoutMetrics)) : ∀ v : ℚ, v ≤ maxUtilFrom ms v := by
  induction ms with
  | nil => intro v; exact le_refl v
  | cons q rest ih =>
    intro v
    rw [maxUtilFrom_cons]
    exact le_trans (le_max_left _ _) (ih _)

lemma mem_le_maxUtilFrom (ms : List (String × LayoutMetrics)) :
    ∀ (v : ℚ) (p : String × LayoutMetrics), p ∈ ms →
      p.2.space_utilization ≤ maxUtilFrom ms v := by
  induction ms with
  | nil => intro v p hp; cases hp
  | cons q rest ih =>
    intro v p hp
    rw [maxUtilFrom_cons]
    rcases List.mem_cons.mp hp with rfl | hmem
    · exact le_trans (le_max_right _ _) (le_maxUtilFrom rest _)
    · exact ih _ p hmem

lemma maxUtilFrom_of_all_le (ms : List (String × LayoutMetrics)) :
    ∀ v : ℚ, (∀ p ∈ ms, p.2.space_utilization ≤ v) → maxUtilFrom ms v = v := by
  induction ms with
  | nil => intro v _; rfl
  | cons q rest ih =>
    intro v hall
    rw [maxUtilFrom_cons, max_eq_left (hall q (List.mem_cons_self q rest))]
    exact ih v fun p hp => hall p (List.mem_cons_of_mem q hp)

lemma foldl_scanStep_stay (ms : List (String × LayoutMetrics)) :
    ∀ acc : Option String × ℚ, (∀ p ∈ ms, p.2.space_utilization ≤ acc.2) →
      ms.foldl scanStep acc = acc := by
  induction ms with
  | nil => intro acc _; rfl
  | cons q rest ih =>
    intro acc hall
    rw [List.foldl_cons]
    have hq : scanStep acc q = acc := by
      unfold scanStep
      rw [if_neg (not_lt.mpr (hall q (List.mem_cons_self q rest)))]
    rw [hq]
    exact ih acc fun p hp => hall p (List.mem_cons_of_mem q hp)

lemma maxUtilFrom_attained (ms : List (String × LayoutMetrics)) :
    ∀ v : ℚ, maxUtilFrom ms v = v ∨
      ∃ p ∈ ms, maxUtilFrom ms v = p.2.space_utilization := by
  induction ms with
  | nil => intro v; exact Or.inl rfl
  | cons q rest ih =>
    intro v
    rw [maxUtilFrom_cons]
    rcases ih (max v q.2.space_utilization) with heq | ⟨p, hpmem, hpe⟩
    · rcases max_cases v q.2.space_utilization with ⟨hm, _⟩ | ⟨hm, _⟩
      · exact Or.inl (by rw [heq, hm])
      · exact Or.inr ⟨q, List.mem_cons_self q rest, by rw [heq, hm]⟩
    · exact Or.inr ⟨p, List.mem_cons_of_mem q hpmem, hpe⟩

/-- The scan keeps the first entry that attains the running maximum:
whenever some entry strictly beats the initial best value, the selected
name is the first list entry whose utilization reaches the overall
maximum. -/
lemma foldl_scanStep_fst_find (ms : List (String × LayoutMetrics)) :
    ∀ acc : Option String × ℚ,
      (∃ p ∈ ms, acc.2 < p.2.space_utilization) →
      (ms.foldl scanStep acc).1 =
        (ms.find? fun p =>
          decide (maxUtilFrom ms acc.2 ≤ p.2.space_utilization)).map Prod.fst := by
  induction ms with
  | nil =>
    rintro acc ⟨p, hp, -⟩
    cases hp
  | cons q rest ih =>
    rintro acc hex
    rw [List.foldl_cons]
    simp only [maxUtilFrom_cons]
    by_cases hq : acc.2 < q.2.space_utilization
    · have hstep : scanStep acc q = (some q.1, q.2.space_utilization) := by
        unfold scanStep
        rw [if_pos hq]
      rw [hstep]
      simp only [max_eq_right hq.le]
      by_cases hr : ∃ p ∈ rest, q.2.space_utilization < p.2.space_utilization
      · obtain ⟨p, hpmem, hpu⟩ := hr
        have hMu : q.2.space_utilization < maxUtilFrom rest q.2.space_utilization :=
          lt_of_lt_of_le hpu (mem_le_maxUtilFrom rest _ p hpmem)
        rw [List.find?_cons_of_neg]
        · exact ih (some q.1, q.2.space_utilization) ⟨p, hpmem, hpu⟩
        · simp only [decide_eq_true_eq]
          exact not_le.mpr hMu
      · push_neg at hr
        have hM : maxUtilFrom rest q.2.space_utilization = q.2.space_utilization :=
          maxUtilFrom_of_all_le rest _ hr
        rw [foldl_scanStep_stay rest _ hr]
        simp only [hM]
        rw [List.find?_cons_of_pos _ (by simp)]
        rfl
    · push_neg at hq
      have hstep : scanStep acc q = acc := by
        unfold scanStep
        rw [if_neg (not_lt.mpr hq)]
      rw [hstep]
      simp only [max_eq_left hq]
      obtain ⟨p, hpmem, hpu⟩ := hex
      have hpmem' : p ∈ rest := by
        rcases List.mem_cons.mp hpmem with rfl | hmem
        · exact absurd hpu (not_lt.mpr hq)
        · exact hmem
      have hMk : acc.2 < maxUtilFrom rest acc.2 :=
        lt_of_lt_of_le hpu (mem_le_maxUtilFrom rest _ p hpmem')
      rw [List.find?_cons_of_neg]
      · exact ih acc ⟨p, hpmem', hpu⟩
      · simp only [decide_eq_true_eq]
        exact not_le.mpr (lt_of_le_of_lt hq hMk)

/-- C9: the best-layout selection for `space_utilization` never divides by
zero (utilization is the guarded ratio of placed rack cell-area to total
grid cell-area), scans the effective metrics map — the re-run result when
fewer than the 5 layout types are recorded — returning the first entry
attaining the maximum utilization, and, whenever some strategy placed a
positive number of racks, the selected strategy also placed a positive
number (so an infeasible 0-rack strategy is never chosen over a feasible
one). -/
theorem get_best_layout_first_max (current refreshed : List (String × LayoutMetrics)) (T : ℚ)
    (hT : 0 < T)
    (hform : ∀ p ∈ effective_metrics current refreshed,
        p.2.space_utilization = 2 * (p.2.racks_placed : ℚ) / T) :
    (∀ (g : Grid) (racks : List Element),
        0 < (g.gridWidth : Int) * (g.gridLength : Int) →
        (calculate_metrics g racks).space_utilization =
          (((racks.map fun r => r.width_cells * r.height_cells).sum : Int) : ℚ) /
            (((g.gridWidth : Int) * (g.gridLength : Int) : Int) : ℚ)) ∧
    get_best_layout current refreshed =
      ((effective_metrics current refreshed).find? fun p =>
        decide (maxUtilFrom (effective_metrics current refreshed) (-1) ≤
          p.2.space_utilization)).map Prod.fst ∧
    ((∃ p ∈ effective_metrics current refreshed, 0 < p.2.racks_placed) →
      ∃ q ∈ effective_metrics current refreshed,
        get_best_layout current refreshed = some q.1 ∧ 0 < q.2.racks_placed) := by
  have h2 : get_best_layout current refreshed =
      ((effective_metrics current refreshed).find? fun p =>
        decide (maxUtilFrom (effective_metrics current refreshed) (-1) ≤
          p.2.space_utilization)).map Prod.fst := by
    unfold get_best_layout best_layout_scan
    cases hms : effective_metrics current refreshed with
    | nil => rfl
    | cons q rest =>
      have hq0 : (0 : ℚ) ≤ q.2.space_utilization := by
        rw [hform q (by rw [hms]; exact List.mem_cons_self q rest)]
        exact div_nonneg (by positivity) hT.le
      exact foldl_scanStep_fst_find (q :: rest) (none, -1)
        ⟨q, List.mem_cons_self q rest, lt_of_lt_of_le (by norm_num) hq0⟩
  refine ⟨?_, h2, ?_⟩
  · intro g racks htot
    simp [calculate_metrics, htot]
  · rintro ⟨p, hpmem, hpk⟩
    have hk : (0 : ℚ) < (p.2.racks_placed : ℚ) := by exact_mod_cast hpk
    have hpu : 0 < p.2.space_utilization := by
      rw [hform p hpmem]
      exact div_pos (by linarith) hT
    have hpM : p.2.space_utilization ≤
        maxUtilFrom (effective_metrics current refreshed) (-1) :=
      mem_le_maxUtilFrom _ _ p hpmem
    have hMpos : 0 < maxUtilFrom (effective_metrics current refreshed) (-1) :=
      lt_of_lt_of_le hpu hpM
    rcases maxUtilFrom_attained (effective_metrics current refreshed) (-1) with heq |
        ⟨q, hqmem, hqe⟩
    · rw [heq] at hMpos
      norm_num at hMpos
    · have hfind_some : ((effective_metrics current refreshed).find? fun r =>
          decide (maxUtilFrom (effective_metrics current refreshed) (-1) ≤
            r.2.space_utilization)).isSome := by
        rw [List.find?_isSome]
        exact ⟨q, hqmem, by rw [hqe]; simp⟩
      obtain ⟨r, hr⟩ := Option.isSome_iff_exists.mp hfind_some
      have hrmem := List.mem_of_find?_eq_some hr
      have hpred := List.find?_some hr
      simp only [decide_eq_true_eq] at hpred
      have hrM : maxUtilFrom (effective_metrics current refreshed) (-1) ≤
          r.2.space_utilization := hpred
      have hru : 0 < r.2.space_utilization := lt_of_lt_of_le hMpos hrM
      have hrk : 0 < r.2.racks_placed := by
        by_contra hke
        push_neg at hke
        rw [hform r hrmem, Nat.le_zero.mp hke] at hru
        norm_num at hru
      exact ⟨r, hrmem, by rw [h2, hr]; rfl, hrk⟩

/-- Witness for C9 on the concrete five-entry metrics map with total grid
area 2: the perimeter entry (10 racks) wins over the 0-rack entries. -/
theorem get_best_layout_first_max_witness : (get_best_layout msC9 []).isSome = true := by
  have heff : effective_metrics msC9 [] = msC9 := rfl
  have thm := get_best_layout_first_max msC9 [] 2 (by norm_num)
    (by
      intro p hp
      rw [heff] at hp
      fin_cases hp <;> norm_num [msC9])
  have hmem : ("perimeter", ({ racks_placed := 10, space_utilization := 10 } :
      LayoutMetrics)) ∈ effective_metrics msC9 [] := by
    rw [heff]
    exact List.mem_cons_of_mem _ (List.mem_cons_of_mem _ (List.mem_cons_of_mem _
      (List.mem_cons_self _ _)))
  obtain ⟨q, _, he, _⟩ := thm.2.2 ⟨_, hmem, by norm_num⟩
  rw [he]
  rfl

/-! ## C10: place_element never registers elements in the lists -/

/-- C10: a direct `place_element` call leaves all four element lists
untouched; on success (with a non-degenerate footprint) the origin cell
goes from EMPTY to the placed type while, the lists being unchanged, a
cell covered by no listed element before the call is still covered by no
listed element afterwards — the newly occupied cells have no
corresponding list entry until a manager registers the returned record. -/
theorem place_element_never_registers (s : DCState) (x y w h t : Int) :
    ((place_element_direct s x y w h t).2.pillars = s.pillars ∧
     (place_element_direct s x y w h t).2.racks = s.racks ∧
     (place_element_direct s x y w h t).2.walls = s.walls ∧
     (place_element_direct s x y w h t).2.support_rooms = s.support_rooms) ∧
    ((place_element_direct s x y w h t).1.isSome = true → 1 ≤ w → 1 ≤ h →
      s.grid.cell x y = EMPTY ∧
      (place_element_direct s x y w h t).2.grid.cell x y = t ∧
      ((∀ el ∈ s.pillars ++ s.racks ++ s.walls ++ s.support_rooms, coversB el x y = false) →
        ∀ el ∈ (place_element_direct s x y w h t).2.pillars ++
            (place_element_direct s x y w h t).2.racks ++
            (place_element_direct s x y w h t).2.walls ++
            (place_element_direct s x y w h t).2.support_rooms,
          coversB el x y = false)) := by
  refine ⟨⟨rfl, rfl, rfl, rfl⟩, ?_⟩
  intro hsome hw hh
  cases hE : is_area_empty s.grid x y w h with
  | false =>
    exfalso
    have hnone := place_element_of_not_empty s.grid x y w h t hE
    unfold place_element_direct at hsome
    rw [hnone] at hsome
    simp at hsome
  | true =>
    refine ⟨?_, ?_, ?_⟩
    · have hall : ((rectCells x y w h).all fun c => s.grid.cell c.1 c.2 == EMPTY) = true := by
        unfold is_area_empty at hE
        exact (Bool.and_eq_true _ _).mp hE |>.2
      have := List.all_eq_true.mp hall (x, y) (mem_rectCells_self x y w h hw hh)
      simpa using this
    · have hin : x ≤ x ∧ x < x + w ∧ y ≤ y ∧ y < y + h := by omega
      simp [place_element_direct, place_element, hE, hin]
    · intro hnone el hel
      exact hnone el hel

/-- Witness for C10: placing a 2×1 RACK at the origin of a fresh 4×4
state leaves the rack list empty while occupying the origin cell. -/
theorem place_element_never_registers_witness :
    (place_element_direct (initState 4 4) 0 0 2 1 RACK).2.racks = (initState 4 4).racks ∧
    (initState 4 4).grid.cell 0 0 = EMPTY ∧
    (place_element_direct (initState 4 4) 0 0 2 1 RACK).2.grid.cell 0 0 = RACK := by
  have thm := place_element_never_registers (initState 4 4) 0 0 2 1 RACK
  have h2 := thm.2 (by decide) (by decide) (by decide)
  exact ⟨thm.1.2.1, h2.1, h2.2.1⟩

end DCD
